import Mathlib

/-!
Verification of the combat-resolution subsystem of the `olympics` card
battler (files `types.py`, `engine.py`, `safeexpr.py`) against its
natural-language specification.  The Python source is shallowly embedded:
Python `int`s become `ℤ`, `Decimal`/`float` values become exact `ℚ`
(the decimal literals appearing in the source — 0.5, 1.5, 1.25, 1.0 —
are all exactly representable, so no drift is introduced), Python's
`float('inf')` sentinel becomes a distinguished `Val.inf` constructor,
and mutation becomes explicit state passing.
-/

/-! ## Expression sandbox (`safeexpr.py`)

`SafeExpr._eval_node` walks a parsed AST, incrementing `self._operations`
at every node entry and raising `ExpressionError("Too many operations")`
past `self._max_operations = 10000`.  We embed the node constructors the
evaluator's claim-relevant branches handle (constants, names, binary
arithmetic, boolean operators over a value list, the ternary `IfExp`);
values are numbers or the `float('inf')` sentinel produced by the
division-by-zero branch.  Errors are `Except.error` with the message the
source raises.  Non-zero rationals and `inf` are truthy, like in Python.
-/

/-- Run-time value of the sandbox: a Python number (Python ints and floats
are modeled as exact rationals) or the `float('inf')` sentinel returned by
the `ast.Div` branch when the right operand is zero. -/
inductive Val where
  | num (q : ℚ)
  | inf
deriving DecidableEq

/-- Python truthiness on sandbox values: zero is falsy, every other
number and `inf` are truthy. -/
def Val.truthy : Val → Bool
  | .num q => q ≠ 0
  | .inf => true

/-- Python `== 0` test used by the division/modulo guards: `inf == 0` is
false. -/
def Val.isZero : Val → Bool
  | .num q => q = 0
  | .inf => false

/-- Python binary `+ - *` lifted to sandbox values; arithmetic with an
`inf` operand follows IEEE where the claims exercise it (`inf` absorbs). -/
def Val.add : Val → Val → Val
  | .num a, .num b => .num (a + b)
  | _, _ => .inf

def Val.sub : Val → Val → Val
  | .num a, .num b => .num (a - b)
  | _, _ => .inf

def Val.mul : Val → Val → Val
  | .num a, .num b => .num (a * b)
  | _, _ => .inf

/-- Python true division on non-zero divisor (exact rational in the model;
the source's int/int produces a float of the same value). -/
def Val.divQ : Val → Val → Val
  | .num a, .num b => .num (a / b)
  | _, _ => .inf

/-- Python floor division `//` on non-zero divisor. -/
def Val.floorDivQ : Val → Val → Val
  | .num a, .num b => .num ((⌊a / b⌋ : ℤ) : ℚ)
  | _, _ => .inf

/-- Python modulo `%` on non-zero divisor: `a % b = a - b * (a // b)`. -/
def Val.modQ : Val → Val → Val
  | .num a, .num b => .num (a - b * ((⌊a / b⌋ : ℤ) : ℚ))
  | _, _ => .inf

/-- The binary operators of `ast.BinOp` handled by `_eval_node` that the
claims exercise (`Pow` is omitted: no claim touches it). -/
inductive SBinOp where
  | add
  | sub
  | mult
  | div
  | floorDiv
  | mod
deriving DecidableEq

/-- `ast.BoolOp` operators. -/
inductive SBoolOp where
  | andOp
  | orOp
deriving DecidableEq

/-- The sandbox AST: the `_allowed_nodes` constructs reached by the
claims.  `boolop` carries the full `node.values` list exactly as
`ast.BoolOp` does (`a and b and c` is one node with three values). -/
inductive SExpr where
  | const (q : ℚ)
  | name (s : String)
  | bin (op : SBinOp) (l r : SExpr)
  | boolop (op : SBoolOp) (vs : List SExpr)
  | ifExp (test body orelse : SExpr)

/-- The evaluation context (`self._context`, a name → number dict). -/
def SCtx := List (String × ℚ)

/-- `_max_operations` from `SafeExpr.__init__`. -/
def maxOperations : Nat := 10000

mutual

/-- Embedding of `SafeExpr._eval_node`.  The `ops` argument threads
`self._operations`: it is incremented on entry to every node and checked
against `_max_operations` (after the increment, as in the source).  The
returned pair is (value, operations counter after this node).

Source branches embedded verbatim:
* `ast.Constant` returns the literal;
* `ast.Name` returns the context entry when present, `1`/`0`/`0` for
  `True`/`False`/`None`, and otherwise `0` (the source comment marks this
  "Bug 19: Missing variable returns 0 instead of error");
* `ast.BinOp` evaluates BOTH operands first ("Bug 21"), then dispatches;
  `Div` with a zero right operand returns `float('inf')` ("Bug 23"),
  `FloorDiv` returns `0` ("Bug 24"), `Mod` returns the left operand
  ("Bug 25");
* `ast.BoolOp` evaluates the whole value list and applies `all`/`any`
  truthiness, returning `1`/`0` ("Bug 30: Short-circuit evaluation
  broken");
* `ast.IfExp` evaluates the test AND both branches before selecting
  ("Bug 31: Evaluates both branches"). -/
def evalNode (ctx : SCtx) : SExpr → Nat → Except String (Val × Nat)
  | e, ops =>
    let ops := ops + 1
    if ops > maxOperations then .error "Too many operations"
    else
      match e with
      | .const q => .ok (.num q, ops)
      | .name s =>
        match ctx.lookup s with
        | some q => .ok (.num q, ops)
        | none =>
          if s = "True" then .ok (.num 1, ops)
          else if s = "False" then .ok (.num 0, ops)
          else if s = "None" then .ok (.num 0, ops)
          else .ok (.num 0, ops)
      | .bin op l r => do
        let (lv, ops) ← evalNode ctx l ops
        let (rv, ops) ← evalNode ctx r ops
        match op with
        | .add => .ok (lv.add rv, ops)
        | .sub => .ok (lv.sub rv, ops)
        | .mult => .ok (lv.mul rv, ops)
        | .div => if rv.isZero then .ok (.inf, ops) else .ok (lv.divQ rv, ops)
        | .floorDiv => if rv.isZero then .ok (.num 0, ops) else .ok (lv.floorDivQ rv, ops)
        | .mod => if rv.isZero then .ok (lv, ops) else .ok (lv.modQ rv, ops)
      | .boolop op vs => do
        let (values, ops) ← evalNodeList ctx vs ops
        match op with
        | .andOp => .ok (.num (if values.all Val.truthy then 1 else 0), ops)
        | .orOp => .ok (.num (if values.any Val.truthy then 1 else 0), ops)
      | .ifExp t b o => do
        let (test, ops) ← evalNode ctx t ops
        let (tv, ops) ← evalNode ctx b ops
        let (fv, ops) ← evalNode ctx o ops
        .ok (if test.truthy then tv else fv, ops)

/-- The list comprehension `[self._eval_node(v) for v in node.values]`
inside the `ast.BoolOp` branch: evaluates every element, left to right. -/
def evalNodeList (ctx : SCtx) : List SExpr → Nat → Except String (List Val × Nat)
  | [], ops => .ok ([], ops)
  | v :: vs, ops => do
    let (x, ops) ← evalNode ctx v ops
    let (xs, ops) ← evalNodeList ctx vs ops
    .ok (x :: xs, ops)

end

/-- Embedding of the public `SafeExpr.eval`: resets the operation counter
to zero and runs `_eval_node` on the tree.  The source's result coercion
(`Fraction`→`float`, `Decimal` quantization) is the identity on our exact
rationals, and the value is always numeric here, so the "Bug 12" coercion
of non-numeric results to zero is unreachable for the embedded fragment. -/
def SafeExpr.eval (ctx : SCtx) (e : SExpr) : Except String Val :=
  (evalNode ctx e 0).map (·.1)

/-! ## Data model (`types.py`) -/

/-- `StatusType` enum from `types.py`. -/
inductive StatusType where
  | poison
  | vulnerable
  | weak
  | strength
  | dexterity
  | regeneration
  | thorns
deriving DecidableEq

/-- `StatusEffect` dataclass: intensity, and duration with `-1` meaning
permanent.  (The `source : weakref` field carries no combat semantics and
is omitted.) -/
structure StatusEffect where
  type : StatusType
  intensity : ℤ
  duration : ℤ := -1
deriving DecidableEq

/-- `StatusEffect.decay`: a timed status loses one turn of duration; the
returned flag is the source's return value, true when the status must be
removed (duration hit zero). -/
def StatusEffect.decay (s : StatusEffect) : StatusEffect × Bool :=
  if s.duration > 0 then
    ({ s with duration := s.duration - 1 }, s.duration - 1 = 0)
  else (s, false)

/-- `StatusEffect.stack`, merging an incoming status `other` of the same
type into `self`: intensity is summed, and
`self.duration = max(self.duration, other.duration) if self.duration > 0
else other.duration` (the source marks this line "Bug 3: Incorrect
stacking logic").  A mismatched type leaves `self` unchanged. -/
def StatusEffect.stack (self other : StatusEffect) : StatusEffect :=
  if self.type = other.type then
    { self with
      intensity := self.intensity + other.intensity,
      duration := if self.duration > 0 then max self.duration other.duration
                  else other.duration }
  else self

/-- `CombatModifiers` dataclass; the `Decimal` multipliers are exact
rationals. -/
structure CombatModifiers where
  damage_multiplier : ℚ := 1
  damage_taken_multiplier : ℚ := 1
  card_draw_bonus : ℤ := 0
  energy_bonus : ℤ := 0
  block_multiplier : ℚ := 1
deriving DecidableEq

/-- Python's `int(...)` conversion: truncation toward zero. -/
def pyInt (q : ℚ) : ℤ := if 0 ≤ q then ⌊q⌋ else ⌈q⌉

/-- `CombatModifiers.apply_damage`: `int(Decimal(str(base)) *
self.damage_multiplier)`. -/
def CombatModifiers.apply_damage (m : CombatModifiers) (base : ℤ) : ℤ :=
  pyInt ((base : ℚ) * m.damage_multiplier)

/-- `Effect` dataclass (the fields the embedded operations read; `timing`
only routes effects onto the event queue in `process_card_effects` and is
not consulted by `_apply_effect` itself). -/
structure Effect where
  kind : String
  value : ℤ
  duration : ℤ := 0
  targets_self : Bool := false
  condition : Option String := none
deriving DecidableEq

/-- `Card` dataclass (fields read by the embedded decision loop and
effect resolution; `tags` and `upgrade_level` are never consulted by
them). -/
structure Card where
  id : String
  name : String
  cost : ℚ
  effects : List Effect := []
  ethereal : Bool := false
  innate : Bool := false
  retain : Bool := false
deriving DecidableEq

/-- A combatant.  `engine.apply_damage` and the status registry are
duck-typed in the source over `PlayerState` and `EnemyState`, which share
`hp`, `max_hp`, `block`, `statuses`, `modifiers`; this structure carries
the union of the fields those embedded operations touch (`energy` and
`hand` exist only on `PlayerState`, the intent/enrage fields only on
`EnemyState`).  The Python status dict is keyed by `StatusType` and
insertion-ordered, so it is modeled as a list holding at most one entry
per type. -/
structure Combatant where
  hp : ℤ
  max_hp : ℤ
  energy : ℚ := 0
  block : ℤ := 0
  statuses : List StatusEffect := []
  modifiers : CombatModifiers := {}
  hand : List Card := []
  intent_value : ℤ := 0
  enrage_threshold : ℚ := 1/2
  is_enraged : Bool := false
deriving DecidableEq

/-- Python's `StatusType.X in statuses` dict-membership test. -/
def Combatant.hasStatus (c : Combatant) (t : StatusType) : Bool :=
  c.statuses.any (fun s => s.type == t)

/-- `PlayerState.add_status`: merge into the existing entry of the same
type (in place, keeping its position) or insert the new status at the
end of the insertion-ordered dict. -/
def Combatant.add_status (c : Combatant) (st : StatusEffect) : Combatant :=
  if c.hasStatus st.type then
    { c with statuses := c.statuses.map (fun s =>
        if s.type == st.type then s.stack st else s) }
  else
    { c with statuses := c.statuses ++ [st] }

/-- `EnemyState.check_enrage`: below (or at) the threshold fraction of
max hp and not already enraged, set `is_enraged` and multiply the damage
multiplier by `Decimal("1.5")`.  The Python float division `hp / max_hp`
is modeled as exact rational division (every value the program produces
is small enough for the float comparison to agree). -/
def Combatant.check_enrage (c : Combatant) : Combatant :=
  if (c.hp : ℚ) / (c.max_hp : ℚ) ≤ c.enrage_threshold ∧ c.is_enraged = false then
    { c with
      is_enraged := true,
      modifiers := { c.modifiers with
        damage_multiplier := c.modifiers.damage_multiplier * (3/2) } }
  else c

/-! ## Event queue (`types.py`, class `EventQueue`)

`push` appends to the backing list and re-sorts it with Python's
`list.sort(key=lambda x: x[0])`; Python's sort is stable and compares
priorities only, which is exactly `List.mergeSort` with the boolean
relation `a.1 ≤ b.1`.  `pop` removes the front.  The `_counter` field is
never read and is omitted. -/

/-- The sort relation of `self._queue.sort(key=lambda x: x[0])`:
compare priorities only, so equal-priority entries are tie-broken by the
stable sort's order preservation. -/
def qle {α : Type} (a b : ℤ × α) : Bool := decide (a.1 ≤ b.1)

/-- `EventQueue.push`. -/
def EventQueue.push {α : Type} (q : List (ℤ × α)) (priority : ℤ) (item : α) :
    List (ℤ × α) :=
  (q ++ [(priority, item)]).mergeSort qle

/-- The `while self.event_queue: event = self.event_queue.pop(); event()`
loop of `process_turn_end`, which repeatedly pops the front entry until
the queue becomes falsy (empty): the first component is the sequence of
executed items, the second the queue left behind when the loop exits. -/
def EventQueue.drainLoop {α : Type} : List (ℤ × α) → List α × List (ℤ × α)
  | [] => ([], [])
  | x :: rest =>
    let r := EventQueue.drainLoop rest
    (x.2 :: r.1, r.2)

/-! ## Combat engine (`engine.py`) -/

/-- The value the damage variable holds in `CombatEngine.apply_damage`
just before the block-absorption step: source's multiplier
(`CombatModifiers.apply_damage`), then the weak reduction
`int(damage * Decimal("0.5"))` (source comment: "Bug 7: Weak should
reduce damage by 25%, not 50%"), then the vulnerable increase
`int(damage * Decimal("1.5") * Decimal("1.0"))`, then the externally
registered `self._damage_modifiers` hooks in registration order. -/
def post_modifier_damage (source target : Combatant) (hooks : List (ℤ → ℤ))
    (base_damage : ℤ) : ℤ :=
  let damage := base_damage
  let damage := source.modifiers.apply_damage damage
  let damage := if source.hasStatus .weak then pyInt ((damage : ℚ) * (1/2)) else damage
  let damage := if target.hasStatus .vulnerable
                then pyInt ((damage : ℚ) * (3/2) * 1) else damage
  hooks.foldl (fun d h => h d) damage

/-- `CombatEngine.apply_damage`: after the modifier chain, absorb against
block (`blocked = min(damage, target.block)`; `target.block -= blocked`;
`damage -= blocked`) and return `max(0, damage)`.  The only mutations the
source performs are `target.block -= blocked` (both combatant states are
returned to make that explicit).  Hooks receive the running damage value;
the source also passes a context dict the claims never use. -/
def apply_damage (source target : Combatant) (hooks : List (ℤ → ℤ))
    (base_damage : ℤ) : Combatant × Combatant × ℤ :=
  let damage := post_modifier_damage source target hooks base_damage
  let blocked := min damage target.block
  let target := { target with block := target.block - blocked }
  let damage := damage - blocked
  (source, target, max 0 damage)

/-- Combat state: the fields of `GameState` the embedded operations
touch (`log`, rng seed and pile bookkeeping are not consulted by them). -/
structure GameStateM where
  turn : ℤ
  player : Combatant
  enemy : Combatant
deriving DecidableEq

/-- `GameState.is_combat_over`. -/
def GameStateM.is_combat_over (s : GameStateM) : Bool :=
  decide (s.player.hp ≤ 0) || decide (s.enemy.hp ≤ 0) || decide (s.turn ≥ 100)

/-- The `StatusType[effect.condition.upper()]` lookup in the `status`
branch of `_apply_effect` (an unknown name raises `KeyError`,
"Bug 15"). -/
def statusTypeOfName : String → Option StatusType
  | "poison" => some .poison
  | "vulnerable" => some .vulnerable
  | "weak" => some .weak
  | "strength" => some .strength
  | "dexterity" => some .dexterity
  | "regeneration" => some .regeneration
  | "thorns" => some .thorns
  | _ => none

/-- `CombatEngine._apply_effect` (log strings omitted).  Branches:
* `damage`: `apply_damage(state.player, state.enemy, effect.value)` then
  `state.enemy.hp -= damage` — no clamp at zero;
* `block`: `state.player.block += int(effect.value * block_multiplier)`;
* `energy`: `state.player.energy += effect.value`;
* `status`: build a `StatusEffect` from the effect and call
  `target.add_status` (`KeyError` on an unknown status name is modeled as
  `none`); `target` is `state.player` when `targets_self` else
  `state.enemy`;
* `heal`: `target.hp += effect.value` — no clamp at `max_hp` (source
  comment: "Bug 16: Healing can exceed max HP");
* `draw` delegates to the external Deck Service and any other kind falls
  through, leaving the state unchanged.
The engine's hook list is passed explicitly (empty in every embedded
scenario, as no caller in the claims registers hooks). -/
def apply_effect (hooks : List (ℤ → ℤ)) (s : GameStateM) (effect : Effect) :
    Option GameStateM :=
  let target := if effect.targets_self then s.player else s.enemy
  if effect.kind = "damage" then
    let (p, e, damage) := apply_damage s.player s.enemy hooks effect.value
    some { s with player := p, enemy := { e with hp := e.hp - damage } }
  else if effect.kind = "block" then
    some { s with player := { s.player with
      block := s.player.block + pyInt ((effect.value : ℚ) * s.player.modifiers.block_multiplier) } }
  else if effect.kind = "energy" then
    some { s with player := { s.player with energy := s.player.energy + effect.value } }
  else if effect.kind = "status" then
    match effect.condition.bind statusTypeOfName with
    | none => none
    | some t =>
      let st : StatusEffect := { type := t, intensity := effect.value, duration := effect.duration }
      let target := target.add_status st
      if effect.targets_self then some { s with player := target }
      else some { s with enemy := target }
  else if effect.kind = "heal" then
    if effect.targets_self then
      some { s with player := { s.player with hp := s.player.hp + effect.value } }
    else
      some { s with enemy := { s.enemy with hp := s.enemy.hp + effect.value } }
  else
    some s

/-- The poison tick of `process_turn_end` for one combatant: when a
poison status is present, `target.hp -= poison.intensity` (source
comment: "Bug 19: Poison doesn't account for block" — and no clamp at
zero hp either), then `poison.intensity = max(0, poison.intensity - 1)`
in place. -/
def tick_poison (c : Combatant) : Combatant :=
  match c.statuses.find? (fun s => s.type == StatusType.poison) with
  | none => c
  | some poison =>
    { c with
      hp := c.hp - poison.intensity,
      statuses := c.statuses.map (fun s =>
        if s.type == StatusType.poison
        then { s with intensity := max 0 (s.intensity - 1) }
        else s) }

/-- The enemy-attack arm of the main loop:
`damage = apply_damage(state.enemy, state.player, state.enemy.intent_value)`
followed by `state.player.hp -= damage` — no clamp at zero. -/
def enemy_attack (hooks : List (ℤ → ℤ)) (s : GameStateM) : GameStateM :=
  let (e, p, damage) := apply_damage s.enemy s.player hooks s.enemy.intent_value
  { s with enemy := e, player := { p with hp := p.hp - damage } }

/-- Outcome of one iteration of the player-decision loop in
`run_combat`.  `indexFault` marks the uncaught `IndexError` of
`card = state.player.hand[card_idx]` (source comment: "Bug 25: Index can
be out of bounds"). -/
inductive DecisionOutcome where
  | endTurn
  | playCard (c : Card)
  | indexFault
deriving DecidableEq

/-- The guard portion of one player-decision iteration in `run_combat`:
a negative policy index breaks the loop ("end turn"); otherwise the hand
is indexed directly, so an index past the end raises `IndexError`; an
unaffordable card (`energy < cost`) also breaks the loop, before any
state is mutated.  Only on a successful guard pass is the card played
(cost paid, effects resolved, card moved to discard/exhaust). -/
def decision_step (hand : List Card) (energy : ℚ) (card_idx : ℤ) :
    DecisionOutcome :=
  if card_idx < 0 then .endTurn
  else
    match hand.get? card_idx.toNat with
    | none => .indexFault
    | some card => if energy < card.cost then .endTurn else .playCard card

/-! ## Stable-sort facts about `EventQueue.push` -/

theorem qle_trans {α : Type} : ∀ a b c : ℤ × α, qle a b → qle b c → qle a c := by
  intro a b c hab hbc
  simp only [qle, decide_eq_true_eq] at hab hbc ⊢
  omega

theorem qle_total {α : Type} : ∀ a b : ℤ × α, qle a b || qle b a := by
  intro a b
  rcases le_total a.1 b.1 with h | h <;> simp [qle, h]

/-- Filtering one priority class commutes with the stable sort: the
entries of priority `p` come out of `mergeSort qle` exactly in the order
they went in. -/
theorem filter_mergeSort_priority {α : Type} (L : List (ℤ × α)) (p : ℤ) :
    (L.mergeSort qle).filter (fun x => decide (x.1 = p)) =
      L.filter (fun x => decide (x.1 = p)) := by
  have hA_pw : (L.filter (fun x => decide (x.1 = p))).Pairwise (fun a b => qle a b = true) := by
    apply List.pairwise_of_forall_mem_list
    intro a ha b hb
    have ha2 := (List.mem_filter.mp ha).2
    have hb2 := (List.mem_filter.mp hb).2
    simp only [decide_eq_true_eq] at ha2 hb2
    simp [qle, ha2, hb2]
  have hA_sub : List.Sublist (L.filter (fun x => decide (x.1 = p))) (L.mergeSort qle) :=
    List.sublist_mergeSort qle_trans qle_total hA_pw (List.filter_sublist L)
  have h1 : (L.filter (fun x => decide (x.1 = p))).filter (fun x => decide (x.1 = p)) =
      L.filter (fun x => decide (x.1 = p)) :=
    List.filter_eq_self.mpr (fun a ha => (List.mem_filter.mp ha).2)
  have hAB : List.Sublist (L.filter (fun x => decide (x.1 = p)))
      ((L.mergeSort qle).filter (fun x => decide (x.1 = p))) :=
    h1 ▸ hA_sub.filter (fun x => decide (x.1 = p))
  have hperm : List.Perm ((L.mergeSort qle).filter (fun x => decide (x.1 = p)))
      (L.filter (fun x => decide (x.1 = p))) :=
    (L.mergeSort_perm qle).filter _
  exact (hAB.eq_of_length hperm.length_eq.symm).symm

/-- A priority-sorted list is determined by its per-priority classes:
two sorted permutations of each other whose priority classes agree
elementwise are equal (uniqueness of a stable sort). -/
theorem stable_sorted_unique {α : Type} (A : List (ℤ × α)) :
    ∀ B : List (ℤ × α), List.Perm A B →
      A.Pairwise (fun a b => qle a b = true) →
      B.Pairwise (fun a b => qle a b = true) →
      (∀ p : ℤ, A.filter (fun x => decide (x.1 = p)) =
        B.filter (fun x => decide (x.1 = p))) →
      A = B := by
  induction A with
  | nil =>
    intro B hperm _ _ _
    exact hperm.symm.eq_nil.symm
  | cons x A2 ih =>
    intro B hperm hApw hBpw hf
    cases B with
    | nil => exact absurd hperm.eq_nil (List.cons_ne_nil x A2)
    | cons y B2 =>
      have hy_mem : y ∈ x :: A2 := hperm.symm.subset (List.mem_cons_self y B2)
      have hx_mem : x ∈ y :: B2 := hperm.subset (List.mem_cons_self x A2)
      have hApc := List.pairwise_cons.mp hApw
      have hBpc := List.pairwise_cons.mp hBpw
      have hxy : x.1 = y.1 := by
        rcases List.mem_cons.mp hy_mem with h | h
        · rw [h]
        · rcases List.mem_cons.mp hx_mem with h2 | h2
          · rw [h2]
          · have u1 := hApc.1 y h
            have u2 := hBpc.1 x h2
            simp only [qle, decide_eq_true_eq] at u1 u2
            omega
      have hfx := hf x.1
      rw [List.filter_cons, List.filter_cons] at hfx
      simp only [decide_eq_true_eq, if_pos rfl, if_pos hxy.symm] at hfx
      injection hfx with hhead htail0
      subst hhead
      have hperm2 : List.Perm A2 B2 := hperm.cons_inv
      have hftail : ∀ p : ℤ, A2.filter (fun z => decide (z.1 = p)) =
          B2.filter (fun z => decide (z.1 = p)) := by
        intro p
        have h := hf p
        rw [List.filter_cons, List.filter_cons] at h
        by_cases hc : x.1 = p
        · simp only [decide_eq_true_eq, if_pos hc] at h
          injection h
        · simp only [decide_eq_true_eq, if_neg hc] at h
          exact h
      rw [ih B2 hperm2 hApc.2 hBpc.2 hftail]

/-- A whole sequence of `push` calls against an initially empty queue. -/
def pushAll {α : Type} (ps : List (ℤ × α)) : List (ℤ × α) :=
  ps.foldl (fun q pr => EventQueue.push q pr.1 pr.2) []

/-- One `push` preserves the queue invariant: sorted by priority, and
every priority class in pushed order. -/
theorem push_step {α : Type} (q seen : List (ℤ × α)) (x : ℤ × α)
    (_hpw : q.Pairwise (fun a b => qle a b = true))
    (hperm : List.Perm q seen)
    (hfil : ∀ p : ℤ, q.filter (fun z => decide (z.1 = p)) =
      seen.filter (fun z => decide (z.1 = p))) :
    (EventQueue.push q x.1 x.2).Pairwise (fun a b => qle a b = true) ∧
      List.Perm (EventQueue.push q x.1 x.2) (seen ++ [x]) ∧
      ∀ p : ℤ, (EventQueue.push q x.1 x.2).filter (fun z => decide (z.1 = p)) =
        (seen ++ [x]).filter (fun z => decide (z.1 = p)) := by
  refine ⟨?_, ?_, ?_⟩
  · exact List.sorted_mergeSort qle_trans qle_total (q ++ [(x.1, x.2)])
  · have h1 : List.Perm ((q ++ [x]).mergeSort qle) (q ++ [x]) :=
      List.mergeSort_perm _ qle
    exact h1.trans (List.Perm.append_right [x] hperm)
  · intro p
    show ((q ++ [x]).mergeSort qle).filter _ = _
    rw [filter_mergeSort_priority, List.filter_append, List.filter_append, hfil p]

/-- Invariant of the full push sequence: the queue built by `pushAll` is
priority-sorted, is a permutation of the pushes, and lists each priority
class in push order. -/
theorem pushAll_spec {α : Type} (ps : List (ℤ × α)) :
    (pushAll ps).Pairwise (fun a b => qle a b = true) ∧
      List.Perm (pushAll ps) ps ∧
      ∀ p : ℤ, (pushAll ps).filter (fun z => decide (z.1 = p)) =
        ps.filter (fun z => decide (z.1 = p)) := by
  suffices h : ∀ (rest q seen : List (ℤ × α)),
      (q.Pairwise (fun a b => qle a b = true) ∧ List.Perm q seen ∧
        ∀ p : ℤ, q.filter (fun z => decide (z.1 = p)) =
          seen.filter (fun z => decide (z.1 = p))) →
      ((rest.foldl (fun q pr => EventQueue.push q pr.1 pr.2) q).Pairwise
          (fun a b => qle a b = true) ∧
        List.Perm (rest.foldl (fun q pr => EventQueue.push q pr.1 pr.2) q) (seen ++ rest) ∧
        ∀ p : ℤ, (rest.foldl (fun q pr => EventQueue.push q pr.1 pr.2) q).filter
            (fun z => decide (z.1 = p)) =
          (seen ++ rest).filter (fun z => decide (z.1 = p))) by
    have h0 := h ps [] [] ⟨List.Pairwise.nil, List.Perm.refl [], fun _ => rfl⟩
    simpa [pushAll] using h0
  intro rest
  induction rest with
  | nil =>
    intro q seen h
    simpa using h
  | cons x rest ih =>
    intro q seen h
    have step := push_step q seen x h.1 h.2.1 h.2.2
    have h2 := ih (EventQueue.push q x.1 x.2) (seen ++ [x]) step
    simpa [List.append_assoc] using h2

/-- The drain loop executes the queued items front to back and leaves
the queue empty. -/
theorem drainLoop_eq {α : Type} (q : List (ℤ × α)) :
    EventQueue.drainLoop q = (q.map Prod.snd, []) := by
  induction q with
  | nil => rfl
  | cons x rest ih => simp [EventQueue.drainLoop, ih]

/-! ## Helper lemmas for the damage pipeline -/

/-- Python's `int()` of a nonnegative number is nonnegative. -/
theorem pyInt_nonneg (q : ℚ) (h : 0 ≤ q) : 0 ≤ pyInt q := by
  unfold pyInt
  rw [if_pos h]
  exact Int.le_floor.mpr (by exact_mod_cast h)

/-- With no registered hooks, a nonnegative base damage and a nonnegative
source damage multiplier, the value reaching the block-absorption step is
nonnegative. -/
theorem post_modifier_damage_nonneg (source target : Combatant) (base_damage : ℤ)
    (hbase : 0 ≤ base_damage) (hdm : 0 ≤ source.modifiers.damage_multiplier) :
    0 ≤ post_modifier_damage source target [] base_damage := by
  have cast_nonneg : ∀ z : ℤ, 0 ≤ z → (0 : ℚ) ≤ (z : ℚ) := fun z hz => by exact_mod_cast hz
  have hd0 : 0 ≤ pyInt ((base_damage : ℚ) * source.modifiers.damage_multiplier) :=
    pyInt_nonneg _ (mul_nonneg (cast_nonneg _ hbase) hdm)
  have h1 : 0 ≤ pyInt
      ((pyInt ((base_damage : ℚ) * source.modifiers.damage_multiplier) : ℚ) * (1/2)) :=
    pyInt_nonneg _ (mul_nonneg (cast_nonneg _ hd0) (by norm_num))
  have h2 : 0 ≤ pyInt
      ((pyInt ((base_damage : ℚ) * source.modifiers.damage_multiplier) : ℚ) * (3/2) * 1) :=
    pyInt_nonneg _ (mul_nonneg (mul_nonneg (cast_nonneg _ hd0) (by norm_num)) (by norm_num))
  have h3 : 0 ≤ pyInt
      ((pyInt ((pyInt ((base_damage : ℚ) * source.modifiers.damage_multiplier) : ℚ) * (1/2)) : ℚ)
        * (3/2) * 1) :=
    pyInt_nonneg _ (mul_nonneg (mul_nonneg (cast_nonneg _ h1) (by norm_num)) (by norm_num))
  unfold post_modifier_damage CombatModifiers.apply_damage
  simp only [List.foldl_nil]
  by_cases hw : source.hasStatus .weak <;> by_cases hv : target.hasStatus .vulnerable <;>
    simp only [hw, hv, if_true, if_false, Bool.false_eq_true, ite_true, ite_false]
  · exact h3
  · exact h1
  · exact h2
  · exact hd0

/-! ## Claims -/

/-- C1: the spec claims `hp ≥ 0` after every hp-affecting operation and
`hp ≤ max_hp` after every heal.  The code violates all three hp paths:
a heal effect adds its value with no clamp at `max_hp` (a full-hp player
healed for 10 reaches 60/50), an enemy attack subtracts the applied
damage with no clamp at zero (a 5-hp player hit for 10 drops to -5), and
the poison tick subtracts intensity with no clamp (2 hp with 5 poison
drops to -3).  This theorem evaluates the embedded code at those three
failing inputs. -/
theorem c1_hp_bounds_violated :
    (apply_effect []
        { turn := 1, player := { hp := 50, max_hp := 50 },
          enemy := { hp := 30, max_hp := 30 } }
        { kind := "heal", value := 10, targets_self := true }).map
      (fun s => s.player.hp) = some 60 ∧
    (enemy_attack []
        { turn := 1, player := { hp := 5, max_hp := 50 },
          enemy := { hp := 30, max_hp := 30, intent_value := 10 } }).player.hp = -5 ∧
    (tick_poison
        { hp := 2, max_hp := 50,
          statuses := [{ type := .poison, intensity := 5 }] }).hp = -3 := by
  refine ⟨by rfl, ?_, by rfl⟩
  norm_num [enemy_attack, apply_damage, post_modifier_damage,
    CombatModifiers.apply_damage, Combatant.hasStatus, pyInt]

/-- C2: the spec claims division or modulo by zero raises
`DivisionByZeroError`.  The code instead returns sentinels, exactly as
its own comments admit ("Bug 23/24/25: Should raise error"): `1/0`
evaluates to `float('inf')`, `1//0` to `0`, and `5 % 0` to the left
operand `5`; no error is raised (the results are `.ok`, not `.error`). -/
theorem c2_division_by_zero_sentinels :
    SafeExpr.eval [] (.bin .div (.const 1) (.const 0)) = .ok .inf ∧
    SafeExpr.eval [] (.bin .floorDiv (.const 1) (.const 0)) = .ok (.num 0) ∧
    SafeExpr.eval [] (.bin .mod (.const 5) (.const 0)) = .ok (.num 5) := by
  exact ⟨rfl, rfl, rfl⟩

/-- C3: the spec claims `and`/`or` short-circuit and the ternary
evaluates only the selected branch.  The evaluator's operation counter
(`self._operations`, incremented on entry to every `_eval_node` call)
shows otherwise: evaluating `0 and 1/0` performs 5 node visits — the
`BoolOp`, the constant `0`, and all 3 nodes of the `1/0` operand that
short-circuiting must never visit (a lone guard `0` costs 1 visit) —
and `2 if 1 else 1/0` performs 6 visits, entering the unselected
`orelse` branch ("Bug 30/31" in the source). -/
theorem c3_short_circuit_broken :
    evalNode [] (.boolop .andOp [.const 0, .bin .div (.const 1) (.const 0)]) 0 =
      .ok (.num 0, 5) ∧
    evalNode [] (.ifExp (.const 1) (.const 2) (.bin .div (.const 1) (.const 0))) 0 =
      .ok (.num 2, 6) ∧
    evalNode [] (.const 0) 0 = .ok (.num 0, 1) := by
  exact ⟨rfl, rfl, rfl⟩

/-- C4: the spec claims a weak source deals 25% reduced damage
(nominal 10 becomes 7).  The code multiplies by `Decimal("0.5")` — a 50%
reduction ("Bug 7: Weak should reduce damage by 25%, not 50%") — so a
weak source with nominal 10 deals 5, not 7; the spec's full pipeline
scenario (weak source, nominal 10, target with block 5 and vulnerable)
therefore ends with hp loss 2 instead of the specified 5.  The
vulnerable multiplier itself is `1.5 * 1.0`, applied once. -/
theorem c4_weak_percentage_wrong :
    (apply_damage
        { hp := 30, max_hp := 30,
          statuses := [{ type := .weak, intensity := 1, duration := 2 }] }
        { hp := 50, max_hp := 50 } [] 10).2.2 = 5 ∧
    (apply_damage
        { hp := 30, max_hp := 30,
          statuses := [{ type := .weak, intensity := 1, duration := 2 }] }
        { hp := 50, max_hp := 50, block := 5,
          statuses := [{ type := .vulnerable, intensity := 1, duration := 2 }] } [] 10) =
      ({ hp := 30, max_hp := 30,
         statuses := [{ type := .weak, intensity := 1, duration := 2 }] },
       { hp := 50, max_hp := 50, block := 0,
         statuses := [{ type := .vulnerable, intensity := 1, duration := 2 }] }, 2) := by
  constructor <;>
    norm_num [apply_damage, post_modifier_damage, CombatModifiers.apply_damage,
      Combatant.hasStatus, pyInt]

/-- C5: the spec claims merging statuses of one type sums intensity and
keeps the duration permanent (-1) when either side is permanent.
Intensity is indeed summed and the claim's concrete example
(vulnerable(1,2) then vulnerable(1,1) gives intensity 2, duration 2)
holds, but permanence is lost in both directions ("Bug 3" in the
source): a permanent status (duration -1) stacked with an incoming
duration 2 becomes timed with duration 2, and a timed duration-3 status
stacked with a permanent incoming one stays at 3 instead of becoming
permanent. -/
theorem c5_permanent_duration_lost :
    StatusEffect.stack { type := .vulnerable, intensity := 1, duration := -1 }
      { type := .vulnerable, intensity := 1, duration := 2 } =
      { type := .vulnerable, intensity := 2, duration := 2 } ∧
    StatusEffect.stack { type := .vulnerable, intensity := 1, duration := 3 }
      { type := .vulnerable, intensity := 1, duration := -1 } =
      { type := .vulnerable, intensity := 2, duration := 3 } ∧
    ((({ hp := 50, max_hp := 50 } : Combatant).add_status
        { type := .vulnerable, intensity := 1, duration := 2 }).add_status
        { type := .vulnerable, intensity := 1, duration := 1 }).statuses =
      [{ type := .vulnerable, intensity := 2, duration := 2 }] := by
  exact ⟨by decide, by decide, by decide⟩

/-- C7: the spec claims an unknown variable raises
`UnboundVariableError` and is never coerced to zero.  The code's
`ast.Name` branch returns `0` for any name absent from the context
("Bug 19: Missing variable returns 0 instead of error"): evaluating the
bare variable `x` against an empty context, or against a context binding
only `y`, yields `.ok 0` rather than an error. -/
theorem c7_unbound_variable_coerced_to_zero :
    SafeExpr.eval [] (.name "x") = .ok (.num 0) ∧
    SafeExpr.eval [("y", 3)] (.name "x") = .ok (.num 0) := by
  exact ⟨rfl, rfl⟩

/-- C8: the spec claims an out-of-bounds policy index is treated as
"end turn".  In the code only a negative index ends the turn; a
non-negative index is used to subscript the hand directly
("Bug 25: Index can be out of bounds"), so index 5 against a one-card
hand raises an uncaught `IndexError` instead of ending the turn.  The
other two guard paths do behave as specified: a negative index and an
unaffordable card (cost 4 against 3 energy) both end the turn with no
state change. -/
theorem c8_invalid_index_raises :
    decision_step [{ id := "strike", name := "Strike", cost := 1 }] 3 5 = .indexFault ∧
    decision_step [{ id := "strike", name := "Strike", cost := 1 }] 3 (-1) = .endTurn ∧
    decision_step [{ id := "whirl", name := "Whirlwind", cost := 4 }] 3 0 = .endTurn := by
  refine ⟨by rfl, by rfl, ?_⟩
  simp [decision_step]
  norm_num

/-- C6: for every sequence of pushes, draining executes the queued
actions in ascending-priority order (the drained queue is
`Pairwise qle`) and, within every priority class, in strict insertion
order (each class filters out of the queue exactly as it was pushed);
the drain loop executes exactly the queue's items front to back and
leaves the queue empty.  In particular pushing (2,"b"), (1,"a"), (1,"c")
and draining executes "a", "c", "b" and empties the queue.  This holds
because `push` re-sorts with Python's stable `list.sort(key=lambda x:
x[0])`, modeled by the stable `List.mergeSort`. -/
theorem c6_event_queue_drain_order :
    (∀ (α : Type) (ps : List (ℤ × α)),
      (pushAll ps).Pairwise (fun a b => qle a b = true) ∧
      (∀ p : ℤ, (pushAll ps).filter (fun z => decide (z.1 = p)) =
        ps.filter (fun z => decide (z.1 = p))) ∧
      EventQueue.drainLoop (pushAll ps) = ((pushAll ps).map Prod.snd, [])) ∧
    EventQueue.drainLoop (pushAll [((2:ℤ),"b"),((1:ℤ),"a"),((1:ℤ),"c")]) =
      (["a","c","b"], []) := by
  constructor
  · intro α ps
    obtain ⟨h1, _h2, h3⟩ := pushAll_spec ps
    exact ⟨h1, h3, drainLoop_eq _⟩
  · obtain ⟨h1, h2, h3⟩ := pushAll_spec [((2:ℤ),"b"),((1:ℤ),"a"),((1:ℤ),"c")]
    have hBperm : List.Perm ([((2:ℤ),"b"),((1:ℤ),"a"),((1:ℤ),"c")])
        [((1:ℤ),"a"),((1:ℤ),"c"),((2:ℤ),"b")] := by decide
    have hBpw : ([((1:ℤ),"a"),((1:ℤ),"c"),((2:ℤ),"b")] : List (ℤ × String)).Pairwise
        (fun a b => qle a b = true) := by decide
    have hfB : ∀ p : ℤ,
        ([((2:ℤ),"b"),((1:ℤ),"a"),((1:ℤ),"c")] : List (ℤ × String)).filter
          (fun z => decide (z.1 = p)) =
        ([((1:ℤ),"a"),((1:ℤ),"c"),((2:ℤ),"b")] : List (ℤ × String)).filter
          (fun z => decide (z.1 = p)) := by
      intro p
      rcases eq_or_ne p 1 with rfl | hp1
      · decide
      · rcases eq_or_ne p 2 with rfl | hp2
        · decide
        · have d1 : (decide ((1:ℤ) = p)) = false := decide_eq_false (fun h => hp1 h.symm)
          have d2 : (decide ((2:ℤ) = p)) = false := decide_eq_false (fun h => hp2 h.symm)
          simp [List.filter_cons, d1, d2]
    have hq : pushAll [((2:ℤ),"b"),((1:ℤ),"a"),((1:ℤ),"c")] =
        [((1:ℤ),"a"),((1:ℤ),"c"),((2:ℤ),"b")] :=
      stable_sorted_unique _ _ (h2.trans hBperm) h1 hBpw (fun p => (h3 p).trans (hfB p))
    rw [hq]
    rfl

/-- C9: the enrage boost fires at most once.  `check_enrage` is the
identity on an already enraged enemy, is idempotent on every state
(so any number of repeated calls after the first changes nothing), and
on a not-yet-enraged enemy at or below the threshold fraction of max hp
it sets `is_enraged` and multiplies the damage multiplier by 1.5 —
exactly once. -/
theorem c9_enrage_applied_once (c : Combatant) :
    (c.is_enraged = true → c.check_enrage = c) ∧
    c.check_enrage.check_enrage = c.check_enrage ∧
    (c.is_enraged = false → (c.hp : ℚ) / (c.max_hp : ℚ) ≤ c.enrage_threshold →
      c.check_enrage.is_enraged = true ∧
      c.check_enrage.modifiers.damage_multiplier =
        c.modifiers.damage_multiplier * (3/2)) := by
  refine ⟨?_, ?_, ?_⟩
  · intro h
    unfold Combatant.check_enrage
    rw [if_neg]
    simp [h]
  · by_cases hcond : (c.hp : ℚ) / (c.max_hp : ℚ) ≤ c.enrage_threshold ∧ c.is_enraged = false
    · unfold Combatant.check_enrage
      rw [if_pos hcond, if_neg]
      simp
    · unfold Combatant.check_enrage
      rw [if_neg hcond, if_neg hcond]
  · intro h1 h2
    unfold Combatant.check_enrage
    rw [if_pos ⟨h2, h1⟩]
    exact ⟨rfl, rfl⟩

/-- Witness for C9 at a concrete enemy: 5 hp of 10 max, threshold 1/2,
not yet enraged — the enrage triggers and multiplies the multiplier
(1 becomes 3/2). -/
theorem c9_enrage_applied_once_witness :
    (Combatant.check_enrage { hp := 5, max_hp := 10 }).is_enraged = true ∧
    (Combatant.check_enrage { hp := 5, max_hp := 10 }).modifiers.damage_multiplier =
      1 * (3/2) := by
  have h := (c9_enrage_applied_once { hp := 5, max_hp := 10 }).2.2 rfl (by norm_num)
  exact h

/-- C10 counterexample: the claim says `apply_damage` with no hooks never
increases `target.block`.  With the explicit input `base_damage = -10`
against a target with block 5 (both combatants otherwise fresh), the
code computes `blocked = min(-10, 5) = -10` and `block -= blocked`
raises the block from 5 to 15. -/
theorem c10_block_can_increase :
    (apply_damage { hp := 30, max_hp := 30 } { hp := 50, max_hp := 50, block := 5 }
      [] (-10)).2.1.block = 15 ∧
    ¬ ((apply_damage { hp := 30, max_hp := 30 } { hp := 50, max_hp := 50, block := 5 }
      [] (-10)).2.1.block ≤ 5) := by
  have h : (apply_damage { hp := 30, max_hp := 30 } { hp := 50, max_hp := 50, block := 5 }
      [] (-10)).2.1.block = 15 := by
    norm_num [apply_damage, post_modifier_damage, CombatModifiers.apply_damage,
      Combatant.hasStatus, pyInt]
    rw [show ((-10:ℚ)) = ((-10:ℤ):ℚ) by norm_num, Int.ceil_intCast]
    norm_num [Int.min_def]
  exact ⟨h, by rw [h]; norm_num⟩

/-- C10 (amended): for every `apply_damage` call with no externally
registered hooks, a nonnegative base damage, a nonnegative source damage
multiplier and nonnegative target block, the source state is returned
untouched and the target changes only in its `block` field, which
decreases by `min(post-modifier damage, block)` and hence never
increases; the return value is never negative.  (Without the
nonnegativity conditions the block can increase, as the counterexample's
negative base damage shows; the first equation — the frame part — and
the nonnegative return hold for every input.) -/
theorem c10_apply_damage_frame (source target : Combatant) (base_damage : ℤ)
    (hbase : 0 ≤ base_damage) (hdm : 0 ≤ source.modifiers.damage_multiplier)
    (hblock : 0 ≤ target.block) :
    apply_damage source target [] base_damage =
      (source,
       { target with block := target.block - min (post_modifier_damage source target [] base_damage) target.block },
       max 0 (post_modifier_damage source target [] base_damage -
          min (post_modifier_damage source target [] base_damage) target.block)) ∧
    (apply_damage source target [] base_damage).2.1.block ≤ target.block ∧
    0 ≤ (apply_damage source target [] base_damage).2.2 := by
  have hd := post_modifier_damage_nonneg source target base_damage hbase hdm
  refine ⟨rfl, ?_, le_max_left 0 _⟩
  show target.block -
      min (post_modifier_damage source target [] base_damage) target.block ≤ target.block
  omega

/-- Witness for C10 at the spec's pipeline scenario: weak source,
nominal 10, target with block 5 and vulnerable — the hypotheses hold
(10 ≥ 0, multiplier 1 ≥ 0, block 5 ≥ 0) and the conclusion gives block
not increasing and a nonnegative applied damage. -/
theorem c10_apply_damage_frame_witness :
    (apply_damage
        { hp := 30, max_hp := 30,
          statuses := [{ type := .weak, intensity := 1, duration := 2 }] }
        { hp := 50, max_hp := 50, block := 5,
          statuses := [{ type := .vulnerable, intensity := 1, duration := 2 }] }
        [] 10).2.1.block ≤ 5 ∧
    0 ≤ (apply_damage
        { hp := 30, max_hp := 30,
          statuses := [{ type := .weak, intensity := 1, duration := 2 }] }
        { hp := 50, max_hp := 50, block := 5,
          statuses := [{ type := .vulnerable, intensity := 1, duration := 2 }] }
        [] 10).2.2 := by
  have h := c10_apply_damage_frame
    { hp := 30, max_hp := 30,
      statuses := [{ type := .weak, intensity := 1, duration := 2 }] }
    { hp := 50, max_hp := 50, block := 5,
      statuses := [{ type := .vulnerable, intensity := 1, duration := 2 }] }
    10 (by norm_num) (by norm_num) (by norm_num)
  exact ⟨h.2.1, h.2.2⟩
